import Mathlib

/-!
Verification development for the sparql-ts staged query pipeline.

The repository builds SPARQL queries (SparqlBuilder), analyzes the produced
AST for authorization (analyzeBuilder), executes queries against one of two
backends (execQuery), validates and maps each result row (shapeAndMapAll /
shapeAndMapOne) and orchestrates everything per request (createSparqlServer).

This file gives a shallow embedding of those functions and proves theorems
about their contracts.  Thrown JavaScript errors are modelled as Except
values carrying the error message string; asynchronous functions are
modelled as pure fallible functions; external capabilities (the SHACL
validator, the authorization policies, the query backends) are modelled as
explicit function parameters.
-/

namespace SparqlTs

/-- RDF term model (packages/sparql-ts-builder/src/types.ts, rdfjs terms).
The four term kinds the pipeline handles: NamedNode, Literal (value,
language, optional datatype IRI), Variable and BlankNode. -/
inductive Term where
  | namedNode (value : String)
  | literal (value : String) (language : String) (datatype : Option String)
  | var (name : String)
  | blankNode (label : String)
  deriving DecidableEq, Repr

/-- A binding row (types.ts: Map<string, Term>), one solution of the query,
modelled as an association list with unique keys; row.get is List.lookup. -/
def BindingRow : Type := List (String × Term)

instance : DecidableEq BindingRow := by
  unfold BindingRow
  infer_instance

/-- An RDF quad (rdfjs Quad): subject, predicate, object and optional graph. -/
structure Quad where
  subject : Term
  predicate : Term
  object : Term
  graph : Option Term := none
  deriving DecidableEq, Repr

/-- OutputSpec (packages/sparql-ts-builder/src/types.ts): shape reference,
focus-node variable name, quad reconstruction and DTO mapping.  The shape
reference is opaque to the pipeline and modelled as a string. -/
structure OutputSpec (D : Type) where
  shape : String
  focusNodeVar : String
  buildQuads : BindingRow → List Quad
  mapToObject : BindingRow → D

/-- One accumulated WHERE pattern entry of the builder
(SparqlBuilder.ts, field wherePatterns): a triple tagged optional. -/
structure WherePattern where
  subject : Term
  predicate : Term
  object : Term
  optional : Bool
  deriving DecidableEq, Repr

/-- Builder state (SparqlBuilder.ts, private fields).  The TypeScript class
mutates itself and returns this; the embedding passes the state explicitly. -/
structure SparqlBuilder (D : Type) where
  prefixes : List (String × String)
  vars : List Term
  wherePatterns : List WherePattern
  filters : List String
  limitValue : Option Nat
  outputSpec : Option (OutputSpec D)

/-- The state of a freshly constructed builder (new SparqlBuilder()). -/
def SparqlBuilder.new {D : Type} : SparqlBuilder D :=
  { prefixes := [], vars := [], wherePatterns := [], filters := []
    limitValue := none, outputSpec := none }

/-- SparqlBuilder.whereTriple (SparqlBuilder.ts lines 77 to 85): push a
required triple pattern. -/
def SparqlBuilder.whereTriple {D : Type} (b : SparqlBuilder D)
    (s p o : Term) : SparqlBuilder D :=
  { b with wherePatterns :=
      b.wherePatterns ++ [{ subject := s, predicate := p, object := o, optional := false }] }

/-- SparqlBuilder.optionalTriple (SparqlBuilder.ts lines 95 to 104): push a
triple pattern tagged optional. -/
def SparqlBuilder.optionalTriple {D : Type} (b : SparqlBuilder D)
    (s p o : Term) : SparqlBuilder D :=
  { b with wherePatterns :=
      b.wherePatterns ++ [{ subject := s, predicate := p, object := o, optional := true }] }

/-- SparqlBuilder.filter (SparqlBuilder.ts lines 112 to 115): push a raw
filter expression string. -/
def SparqlBuilder.filter {D : Type} (b : SparqlBuilder D) (e : String) : SparqlBuilder D :=
  { b with filters := b.filters ++ [e] }

/-- SparqlBuilder.limit (SparqlBuilder.ts lines 123 to 126): set the limit. -/
def SparqlBuilder.limit {D : Type} (b : SparqlBuilder D) (n : Nat) : SparqlBuilder D :=
  { b with limitValue := some n }

/-- SparqlBuilder.setOutputSpec (SparqlBuilder.ts lines 136 to 139). -/
def SparqlBuilder.setOutputSpec {D : Type} (b : SparqlBuilder D)
    (spec : OutputSpec D) : SparqlBuilder D :=
  { b with outputSpec := some spec }

/-- SparqlBuilder.getOutputSpec (SparqlBuilder.ts lines 147 to 149). -/
def SparqlBuilder.getOutputSpec {D : Type} (b : SparqlBuilder D) : Option (OutputSpec D) :=
  b.outputSpec

/-- A triple inside a bgp AST node (sparqljs triple of translated terms). -/
structure AstTriple where
  subject : Term
  predicate : Term
  object : Term
  deriving DecidableEq, Repr

/-- WHERE-list AST nodes, mirroring the duck-typed sparqljs nodes the
repository produces and inspects: bgp nodes carry a triples array, optional
nodes carry a nested patterns array, filter nodes carry the expression
operator string.  groupP stands for any other node exposing a nested
patterns array (util/ast.ts line 26) and nullP for a falsy entry in the
patterns array (util/ast.ts line 15). -/
inductive Pattern where
  | bgp (triples : List AstTriple)
  | optionalP (patterns : List Pattern)
  | groupP (patterns : List Pattern)
  | filterP (operator : String)
  | nullP

/-- The sparqljs SelectQuery AST produced by toSparqlAst.  The where field
is named whereList because where is a Lean keyword. -/
structure SelectQuery where
  queryType : String
  vars : List Term
  whereList : List Pattern
  prefixes : List (String × String)
  limit : Option Nat

/-- SparqlBuilder.termToSparqlJs (SparqlBuilder.ts lines 222 to 240):
translate an rdfjs term to a sparqljs AST term.  NamedNode, Literal and
BlankNode are rebuilt field by field (Literal keeps its datatype node when
present), Variable is passed through unchanged.  The default branch of the
TypeScript switch is unreachable here because Term has exactly the four
handled kinds. -/
def termToSparqlJs : Term → Term
  | Term.namedNode v => Term.namedNode v
  | Term.literal v lang dt =>
      Term.literal v lang (match dt with | some d => some d | none => none)
  | Term.var n => Term.var n
  | Term.blankNode v => Term.blankNode v

/-- The AST node built for one accumulated wherePatterns entry
(SparqlBuilder.ts lines 166 to 184): a bgp node holding the translated
triple, wrapped in an optional node when the entry is tagged optional. -/
def patternNode (w : WherePattern) : Pattern :=
  let t : AstTriple :=
    { subject := termToSparqlJs w.subject
      predicate := termToSparqlJs w.predicate
      object := termToSparqlJs w.object }
  if w.optional then Pattern.optionalP [Pattern.bgp [t]] else Pattern.bgp [t]

/-- SparqlBuilder.toSparqlAst (SparqlBuilder.ts lines 156 to 204): the two
loops pushing pattern nodes for wherePatterns and then filter nodes for
filters are rendered as the concatenation of the two mapped lists; the
limit field is copied verbatim when set. -/
def SparqlBuilder.toSparqlAst {D : Type} (b : SparqlBuilder D) : SelectQuery :=
  { queryType := "SELECT"
    vars := b.vars.map (fun v => v)
    whereList := b.wherePatterns.map patternNode
      ++ b.filters.map (fun e => Pattern.filterP e)
    prefixes := b.prefixes
    limit := b.limitValue }

/-- Decide whether the character list p occurs as a contiguous sublist of l,
mirroring the JavaScript String.prototype.includes used by the shaper. -/
def hasSubstrAux (p : List Char) : List Char → Bool
  | [] => List.isPrefixOf p []
  | c :: rest => List.isPrefixOf p (c :: rest) || hasSubstrAux p rest

/-- String.prototype.includes: does s contain pat as a substring. -/
def hasSubstr (s pat : String) : Bool :=
  hasSubstrAux pat.toList s.toList

/-- The literal substring the shaper catch block looks for in an error
message (shaper.ts line 72). -/
def focusNodeToken : String := "focusNodeVar"

/-- A single-quote character, used to spell the TypeScript template
literals without writing a quote character in this file. -/
def squote : String := String.singleton (Char.ofNat 39)

/-- The message of the error thrown when the focus-node variable is absent
from a binding row (shaper.ts line 61 and line 111). -/
def missingFocusMsg (focusNodeVar : String) : String :=
  focusNodeToken ++ " " ++ squote ++ focusNodeVar ++ squote
    ++ " not found in binding row"

/-- The external SHACL validation capability validateQuadsWithShape
(quads, shape, focusNode): succeeds or rejects with an error message. -/
def ShaclValidator : Type :=
  List Quad → String → Term → Except String Unit

/-- The per-row body shared by shapeAndMapOne (shaper.ts lines 105 to 118)
and the try block of shapeAndMapAll (shaper.ts lines 54 to 68): build the
quads, resolve the focus node (failing with missingFocusMsg when the
variable is absent), run the validator, and on success map the row to its
DTO. -/
def shapeRowStep {D : Type} (spec : OutputSpec D) (validate : ShaclValidator)
    (row : BindingRow) : Except String D :=
  let quads := spec.buildQuads row
  match List.lookup spec.focusNodeVar row with
  | none => Except.error (missingFocusMsg spec.focusNodeVar)
  | some focusNode =>
    match validate quads spec.shape focusNode with
    | Except.error e => Except.error e
    | Except.ok _ => Except.ok (spec.mapToObject row)

/-- Message thrown by shapeAndMapAll when no OutputSpec is set (shaper.ts
line 47). -/
def outputSpecMissingAllMsg : String :=
  "OutputSpec must be set on SparqlBuilder before calling shapeAndMapAll"

/-- Message thrown by shapeAndMapOne when no OutputSpec is set (shaper.ts
line 100). -/
def outputSpecMissingOneMsg : String :=
  "OutputSpec must be set on SparqlBuilder before calling shapeAndMapOne"

/-- The row loop of shapeAndMapAll (shaper.ts lines 53 to 79): each row is
processed by the shared step; a failure whose message contains the
substring focusNodeVar is re-thrown (shaper.ts lines 71 to 74), any other
failure is logged and the row is skipped (shaper.ts lines 75 to 77). -/
def shapeAllGo {D : Type} (spec : OutputSpec D) (validate : ShaclValidator) :
    List BindingRow → List D → Except String (List D)
  | [], results => Except.ok results
  | row :: rest, results =>
    match shapeRowStep spec validate row with
    | Except.ok dto => shapeAllGo spec validate rest (results ++ [dto])
    | Except.error msg =>
      if hasSubstr msg focusNodeToken then Except.error msg
      else shapeAllGo spec validate rest results

/-- shapeAndMapAll (shaper.ts lines 41 to 82): require the OutputSpec, then
run the row loop with an empty result accumulator. -/
def shapeAndMapAll {D : Type} (builder : SparqlBuilder D)
    (validate : ShaclValidator) (rows : List BindingRow) : Except String (List D) :=
  match builder.getOutputSpec with
  | none => Except.error outputSpecMissingAllMsg
  | some spec => shapeAllGo spec validate rows []

/-- shapeAndMapOne (shaper.ts lines 94 to 119): require the OutputSpec and
run the per-row body once, propagating any failure to the caller. -/
def shapeAndMapOne {D : Type} (builder : SparqlBuilder D)
    (validate : ShaclValidator) (row : BindingRow) : Except String D :=
  match builder.getOutputSpec with
  | none => Except.error outputSpecMissingOneMsg
  | some spec => shapeRowStep spec validate row

-- Equality of Except values is decidable when both components are.
deriving instance DecidableEq for Except

/-- The outcome the specification assigns to one row of shapeAndMapAll:
its DTO when both focus-node resolution and shape validation succeed,
nothing otherwise. -/
def rowOutcome {D : Type} (spec : OutputSpec D) (validate : ShaclValidator)
    (r : BindingRow) : Option D :=
  match List.lookup spec.focusNodeVar r with
  | none => none
  | some t =>
    match validate (spec.buildQuads r) spec.shape t with
    | Except.ok _ => some (spec.mapToObject r)
    | Except.error _ => none

/-- Concrete DTO projection used by the concrete scenarios below: read the
id binding of the row. -/
def cexDto (row : BindingRow) : String :=
  match List.lookup "id" row with
  | some (Term.namedNode v) => v
  | _ => "unknown"

/-- A concrete OutputSpec for the concrete scenarios. -/
def cexSpec : OutputSpec String :=
  { shape := "PersonShape", focusNodeVar := "id"
    buildQuads := fun _ => [], mapToObject := cexDto }

/-- A builder carrying cexSpec. -/
def cexBuilder : SparqlBuilder String := SparqlBuilder.new.setOutputSpec cexSpec

/-- A row binding id to the node p1. -/
def rowP1 : BindingRow := [("id", Term.namedNode "p1")]

/-- A row binding id to the node p2. -/
def rowP2 : BindingRow := [("id", Term.namedNode "p2")]

/-- A row that does not bind the focus-node variable id. -/
def rowNoFocus : BindingRow := [("name", Term.literal "Alice" "" none)]

/-- A validator capability that accepts every row. -/
def alwaysOkValidator : ShaclValidator := fun _ _ _ => Except.ok ()

/-- A validation-failure message that happens to mention the substring
focusNodeVar; the shaper catch block misclassifies such a failure. -/
def dirtyMsg : String := "shape violation involving focusNodeVar binding"

/-- A validator capability that rejects the focus node p1 with dirtyMsg and
accepts everything else. -/
def dirtyOnP1Validator : ShaclValidator := fun _ _ t =>
  if t = Term.namedNode "p1" then Except.error dirtyMsg else Except.ok ()

/-- An ordinary validation-failure message. -/
def cleanMsg : String := "shape violation"

/-- A validator capability that rejects the focus node p1 with cleanMsg and
accepts everything else. -/
def cleanOnP1Validator : ShaclValidator := fun _ _ t =>
  if t = Term.namedNode "p1" then Except.error cleanMsg else Except.ok ()

/-- One fluent builder call of the four kinds the pattern claims range
over: whereTriple, optionalTriple, filter and limit. -/
inductive BuilderOp where
  | whereTriple (s p o : Term)
  | optionalTriple (s p o : Term)
  | filter (e : String)
  | limit (n : Nat)

/-- Apply one fluent call to a builder state. -/
def applyOp {D : Type} (b : SparqlBuilder D) : BuilderOp → SparqlBuilder D
  | BuilderOp.whereTriple s p o => b.whereTriple s p o
  | BuilderOp.optionalTriple s p o => b.optionalTriple s p o
  | BuilderOp.filter e => b.filter e
  | BuilderOp.limit n => b.limit n

/-- Apply a chain of fluent calls, left to right. -/
def applyOps {D : Type} (b : SparqlBuilder D) : List BuilderOp → SparqlBuilder D
  | [] => b
  | op :: ops => applyOps (applyOp b op) ops

/-- The triples a chain of calls inserts, in call order, tagged optional. -/
def opTriples : List BuilderOp → List WherePattern
  | [] => []
  | BuilderOp.whereTriple s p o :: ops =>
      { subject := s, predicate := p, object := o, optional := false } :: opTriples ops
  | BuilderOp.optionalTriple s p o :: ops =>
      { subject := s, predicate := p, object := o, optional := true } :: opTriples ops
  | _ :: ops => opTriples ops

/-- The filter expressions a chain of calls inserts, in call order. -/
def opFilters : List BuilderOp → List String
  | [] => []
  | BuilderOp.filter e :: ops => e :: opFilters ops
  | _ :: ops => opFilters ops

/-- The limit value left by a chain of calls: the last limit call wins. -/
def opLimit : List BuilderOp → Option Nat
  | [] => none
  | BuilderOp.limit n :: ops => some ((opLimit ops).getD n)
  | _ :: ops => opLimit ops

/-- Insert an IRI into the used-identifier set (a JS Set preserves
insertion order and ignores duplicates). -/
def addIri (acc : List String) (x : String) : List String :=
  if x ∈ acc then acc else acc ++ [x]

/-- util/ast.ts lines 18 to 22: a triple position contributes its value
when the term is a NamedNode. -/
def addTerm (acc : List String) (t : Term) : List String :=
  match t with
  | Term.namedNode v => addIri acc v
  | _ => acc

/-- Collect the subject, predicate and object positions of one triple, in
that order (util/ast.ts line 18). -/
def addTriple (acc : List String) (t : AstTriple) : List String :=
  addTerm (addTerm (addTerm acc t.subject) t.predicate) t.object

/-- collectFromPatterns (util/ast.ts lines 13 to 30): walk the pattern
list in order; falsy entries are skipped, bgp nodes contribute their
triples, optional nodes and any other node exposing a patterns array are
recursed into, and nodes without a nested list contribute nothing. -/
def collectPatterns : List Pattern → List String → List String
  | [], acc => acc
  | Pattern.nullP :: rest, acc => collectPatterns rest acc
  | Pattern.bgp ts :: rest, acc => collectPatterns rest (ts.foldl addTriple acc)
  | Pattern.optionalP ps :: rest, acc => collectPatterns rest (collectPatterns ps acc)
  | Pattern.groupP ps :: rest, acc => collectPatterns rest (collectPatterns ps acc)
  | Pattern.filterP _ :: rest, acc => collectPatterns rest acc

/-- The duck-typed where field of the AST object analyzeBuilder receives:
it may be absent, not an array, or a pattern array (util/ast.ts line 39
guards with Array.isArray). -/
inductive WhereField where
  | missing
  | nonArray
  | arr (patterns : List Pattern)

/-- The shape of the AST object the analyzer inspects: a possibly absent
or malformed where field and a possibly absent prefixes record. -/
structure AstLike where
  whereField : WhereField
  prefixes : Option (List (String × String))

/-- The analysis result: the deduplicated used identifiers and the prefix
record defaulted to empty. -/
structure Analysis where
  usedIris : List String
  prefixes : List (String × String)
  deriving DecidableEq, Repr

/-- analyzeBuilder (util/ast.ts lines 32 to 43) applied to the AST object
returned by the duck-typed builder argument: default a non-array where
field and an absent prefixes record to empty containers, collect the used
identifiers into a set, and return it in insertion order. -/
def analyzeAst (a : AstLike) : Analysis :=
  let whereList := match a.whereField with
    | WhereField.arr ps => ps
    | _ => []
  { usedIris := collectPatterns whereList []
    prefixes := a.prefixes.getD [] }

/-- The AST object a real SparqlBuilder hands to the analyzer: its where
field is always an array and its prefixes record is always present. -/
def astLikeOfSelect (q : SelectQuery) : AstLike :=
  { whereField := WhereField.arr q.whereList, prefixes := some q.prefixes }

/-- analyzeBuilder on a real builder: analyze the AST of toSparqlAst. -/
def analyzeBuilder {D : Type} (b : SparqlBuilder D) : Analysis :=
  analyzeAst (astLikeOfSelect b.toSparqlAst)

/-- Does the term equal the named identifier y. -/
def termIsIri (y : String) : Term → Bool
  | Term.namedNode v => v == y
  | _ => false

/-- Does the triple mention the named identifier y in its subject,
predicate or object position. -/
def tripleHasIri (y : String) (t : AstTriple) : Bool :=
  termIsIri y t.subject || termIsIri y t.predicate || termIsIri y t.object

/-- Specification-side occurrence check: does the named identifier y occur
in a leaf basic-pattern position anywhere under the pattern list,
through arbitrarily nested optional and group nodes. -/
def occursPatterns (y : String) : List Pattern → Bool
  | [] => false
  | Pattern.nullP :: rest => occursPatterns y rest
  | Pattern.bgp ts :: rest => ts.any (tripleHasIri y) || occursPatterns y rest
  | Pattern.optionalP ps :: rest => occursPatterns y ps || occursPatterns y rest
  | Pattern.groupP ps :: rest => occursPatterns y ps || occursPatterns y rest
  | Pattern.filterP _ :: rest => occursPatterns y rest

/-- A named identifier used in the nested-analysis witness. -/
def nestedDeepIri : String := "httpdeep"

/-- A two-level nested pattern list: an optional node holding a group node
holding a basic pattern that mentions nestedDeepIri. -/
def nestedPs : List Pattern :=
  [Pattern.optionalP [Pattern.groupP [Pattern.bgp
    [AstTriple.mk (Term.var "s") (Term.namedNode nestedDeepIri) (Term.var "o")]]]]

/-- A JSON-like value as delivered by the grapher backend result data
(execQuery, src/unnamed/part_009 lines 204 to 231).  JavaScript numbers
are modelled as integers; the claims do not depend on float formatting. -/
inductive JsonVal where
  | str (s : String)
  | num (n : Int)
  | boolV (b : Bool)
  | nullV
  | obj (fields : List (String × JsonVal))
  | arr (items : List JsonVal)

mutual

/-- JavaScript String(value) conversion for the modelled values: a string
is itself, numbers and booleans and null print their usual forms, a plain
object prints object Object in brackets, and an array joins the string
forms of its elements with commas (null elements print empty). -/
def jsString : JsonVal → String
  | JsonVal.str s => s
  | JsonVal.num n => toString n
  | JsonVal.boolV true => "true"
  | JsonVal.boolV false => "false"
  | JsonVal.nullV => "null"
  | JsonVal.obj _ => "[object Object]"
  | JsonVal.arr items => jsArrString items

/-- Array.prototype.toString: comma-joined element strings. -/
def jsArrString : List JsonVal → String
  | [] => ""
  | [JsonVal.nullV] => ""
  | [x] => jsString x
  | JsonVal.nullV :: rest => "," ++ jsArrString rest
  | x :: rest => jsString x ++ "," ++ jsArrString rest

end

/-- One field value transcoded to a binding term (part_009 lines 212 to
215 and 224 to 227): a string value becomes a Literal-shaped term (the
fabricated object carries no language or datatype), any other value
becomes a NamedNode-shaped term; both carry String(value). -/
def termOfJsonValue (v : JsonVal) : Term :=
  match v with
  | JsonVal.str s => Term.literal s "" none
  | other => Term.namedNode (jsString other)

/-- Object.entries on an array: index-keyed entries. -/
def enumFields : Nat → List JsonVal → List (String × JsonVal)
  | _, [] => []
  | i, x :: rest => (toString i, x) :: enumFields (i + 1) rest

/-- The guard item and typeof item equals object (part_009 lines 208 and
220) followed by Object.entries: plain objects yield their fields, arrays
yield index-keyed entries, null is falsy and primitives fail the typeof
test, so both yield nothing. -/
def jsEntries : JsonVal → Option (List (String × JsonVal))
  | JsonVal.obj fields => some fields
  | JsonVal.arr items => some (enumFields 0 items)
  | _ => none

/-- Build one binding row from entry fields, converting every field value
by the primitive-kind heuristic (part_009 lines 210 to 216). -/
def rowOfFields (fields : List (String × JsonVal)) : BindingRow :=
  fields.map (fun kv => (kv.1, termOfJsonValue kv.2))

/-- The grapher-branch normalization (part_009 lines 204 to 231): an array
result yields one row per object-like entry, in entry order, skipping
non-object entries; a single object-like result yields one row; anything
else yields no rows. -/
def normalizeGrapherData : JsonVal → List BindingRow
  | JsonVal.arr items => items.filterMap (fun item => (jsEntries item).map rowOfFields)
  | d =>
    match jsEntries d with
    | some fields => [rowOfFields fields]
    | none => []

/-- A key of a streaming binding entry: Comunica passes either a plain
string or a Variable object (part_009 lines 245 to 247). -/
inductive BKey where
  | strKey (s : String)
  | varKey (value : String)
  deriving DecidableEq, Repr

/-- Key conversion (part_009 line 246): a string key is used as is, a
Variable object contributes its value. -/
def keyString : BKey → String
  | BKey.strKey s => s
  | BKey.varKey v => v

/-- Convert one streaming binding (its key and term entries, in entry
order) into a binding row (part_009 lines 241 to 264). -/
def convertBinding (binding : List (BKey × Term)) : BindingRow :=
  binding.map (fun kv => (keyString kv.1, kv.2))

/-- The streaming result of queryBindings: the entries the stream yields
and, optionally, a failure the stream raises after yielding them.  The
failure happens while the caller consumes the returned iterable, after
execQuery has already returned. -/
structure BindingStream where
  items : List (List (BKey × Term))
  failAfter : Option String

/-- The result object of the grapher query call: its data field. -/
structure GrapherResult where
  data : JsonVal

/-- The duck-typed capabilities of the resolved query engine: a grapher
style query method (present exactly when typeof queryEngine.query is a
function of arity at least two, part_009 line 199) and a Comunica style
queryBindings method. -/
structure EngineCaps where
  queryFn : Option (String → Except String GrapherResult)
  queryBindings : Option (String → Except String BindingStream)

/-- The message wrapper of the executor catch block (part_009 line 275). -/
def queryFailedMsg (m : String) : String :=
  "SPARQL query execution failed: " ++ m

/-- execQuery (part_009 lines 190 to 277).  The query text parameter
stands for builder.toString(), produced by the external serializer.  The
result .ok (rows, failAfter) models the returned async iterable: the
generator body runs lazily, outside the try block, after execQuery has
resolved, so rows already yielded are surfaced and a failure raised by the
stream during consumption (failAfter) reaches the consumer unwrapped.
Only a failure of the awaited backend call itself is caught by the catch
block and re-raised with the queryFailedMsg wrapper; a missing duck-typed
method raises a TypeError inside the try block, which the same catch
wraps. -/
def execQuery (availGrapher : Bool) (eng : EngineCaps) (sparql : String) :
    Except String (List BindingRow × Option String) :=
  if availGrapher || eng.queryFn.isSome then
    match eng.queryFn with
    | none => Except.error (queryFailedMsg "queryEngine.query is not a function")
    | some q =>
      match q sparql with
      | Except.error m => Except.error (queryFailedMsg m)
      | Except.ok res => Except.ok (normalizeGrapherData res.data, none)
  else
    match eng.queryBindings with
    | none => Except.error (queryFailedMsg "queryEngine.queryBindings is not a function")
    | some qb =>
      match qb sparql with
      | Except.error m => Except.error (queryFailedMsg m)
      | Except.ok st => Except.ok (st.items.map convertBinding, st.failAfter)

/-- Grapher result data used by the concrete scenarios: two object
entries around one non-object entry. -/
def grapherArrData : JsonVal := JsonVal.arr
  [JsonVal.obj [("name", JsonVal.str "Alice"), ("age", JsonVal.num 30)],
   JsonVal.str "skipped",
   JsonVal.obj [("id", JsonVal.nullV)]]

/-- A grapher-style engine returning grapherArrData. -/
def cexGrapherEngine : EngineCaps :=
  { queryFn := some (fun _ => Except.ok (GrapherResult.mk grapherArrData))
    queryBindings := none }

/-- A grapher-style engine whose query call rejects. -/
def cexFailEngine : EngineCaps :=
  { queryFn := some (fun _ => Except.error "Query failed")
    queryBindings := none }

/-- A stream that yields one binding and then raises boom. -/
def boomStream : BindingStream :=
  { items := [[(BKey.strKey "id", Term.namedNode "p1")]], failAfter := some "boom" }

/-- A Comunica-style engine returning boomStream. -/
def cexComunicaEngine : EngineCaps :=
  { queryFn := none, queryBindings := some (fun _ => Except.ok boomStream) }

/-- The failure classification of the request handler catch block
(part_001 lines 100 to 110): a Zod schema error, an error carrying a
numeric status hint, or any other error.  Messages stand for the error
message or its string form. -/
inductive HandlerErr where
  | zodErr (msg : String)
  | statusErr (status : Nat) (msg : String)
  | plainErr (msg : String)
  deriving DecidableEq, Repr

/-- The parsed JSON body of an inbound request: the operation field and
the params field may each be absent. -/
structure EnvelopeJson where
  operation : Option String
  params : Option JsonVal

/-- An envelope accepted by RequestEnvelope.parse. -/
structure ParsedEnvelope where
  operation : String
  params : Option JsonVal

/-- RequestEnvelope.parse (types.ts lines 35 to 38): operation must be a
string of length at least one, params is unrestricted and optional; a
mismatch raises a Zod error (its issue list is abstracted to a message). -/
def parseRequestEnvelope (j : EnvelopeJson) : Except String ParsedEnvelope :=
  match j.operation with
  | none => Except.error "operation required"
  | some s =>
    if s.length ≥ 1 then Except.ok (ParsedEnvelope.mk s j.params)
    else Except.error "operation must not be empty"

/-- The rendered wire response: status, error envelope name and message
(absent on success) and the meta operation field. -/
structure HResponse where
  status : Nat
  errorName : Option String
  message : Option String
  operationMeta : Option String
  deriving DecidableEq, Repr

/-- The catch block of handle (part_001 lines 100 to 110): a Zod error
renders 400 ValidationError, an error with a numeric status hint reuses
that status with name ServerError, anything else renders 500 ServerError;
meta carries the operation name resolved so far. -/
def renderCatch (e : HandlerErr) (op : String) : HResponse :=
  match e with
  | HandlerErr.zodErr m => HResponse.mk 400 (some "ValidationError") (some m) (some op)
  | HandlerErr.statusErr st m => HResponse.mk st (some "ServerError") (some m) (some op)
  | HandlerErr.plainErr m => HResponse.mk 500 (some "ServerError") (some m) (some op)

/-- An inbound request: its method and its JSON body (none when the body
is not valid JSON, in which case request.json() rejects with an ordinary
error, not a Zod error). -/
structure HRequest where
  method : String
  body : Option EnvelopeJson

/-- createSparqlServer.handle, envelope and routing stage (part_001 lines
31 to 111).  Non-POST methods are rejected with 405 before the try block;
inside it the envelope is parsed (a failure is a Zod error caught as 400),
the operation is resolved in the registry (absence returns 404 directly),
and the remaining pipeline stages (params validation, build, analysis,
authorization, execution, row loop and result validation, lines 50 to 99)
are abstracted as the runResolved capability whose failure classification
flows to the same catch block; its success renders the 200 envelope. -/
def handle {Op R : Type} (registry : String → Option Op)
    (runResolved : Op → ParsedEnvelope → Except HandlerErr R)
    (req : HRequest) : HResponse :=
  if req.method ≠ "POST" then
    HResponse.mk 405 (some "MethodNotAllowed") (some "Use POST") none
  else
    match req.body with
    | none => renderCatch (HandlerErr.plainErr "invalid JSON body") ""
    | some bj =>
      match parseRequestEnvelope bj with
      | Except.error m => renderCatch (HandlerErr.zodErr m) ""
      | Except.ok env =>
        match registry env.operation with
        | none => HResponse.mk 404 (some "OperationNotFound")
            (some ("Unknown operation: " ++ env.operation)) (some env.operation)
        | some opDef =>
          match runResolved opDef env with
          | Except.ok _ => HResponse.mk 200 none none (some env.operation)
          | Except.error e => renderCatch e env.operation

/-- A registry with no operations. -/
def emptyRegistry : String → Option Unit := fun _ => none

/-- A trivial resolved-pipeline capability. -/
def trivialRun : Unit → ParsedEnvelope → Except HandlerErr Unit :=
  fun _ _ => Except.ok ()

/-- The optional row-level authorization capability (part_001 lines 77 to
79): given the row and its reconstructed quads, succeed or throw. -/
def RowAuthorizer : Type := BindingRow → List Quad → Except String Unit

/-- One iteration of the handler row loop body (part_001 lines 74 to 82):
build the quads, run the optional row-level authorizer on them, then
validate and map the row with shapeAndMapOne.  The spec argument is the
OutputSpec the handler extracted from the builder before the loop
(part_001 lines 67 to 70). -/
def serverRowStep {D : Type} (b : SparqlBuilder D) (spec : OutputSpec D)
    (authorizeRow : Option RowAuthorizer) (validate : ShaclValidator)
    (row : BindingRow) : Except String D :=
  let quads := spec.buildQuads row
  match (match authorizeRow with
         | some f => f row quads
         | none => Except.ok ()) with
  | Except.error e => Except.error e
  | Except.ok _ => shapeAndMapOne b validate row

/-- The handler row loop (part_001 lines 72 to 89): each row is processed
by the step inside a try block; on failure the row is logged and skipped
(continue), on success its DTO is pushed, preserving arrival order. -/
def processRows {D : Type} (b : SparqlBuilder D) (spec : OutputSpec D)
    (authorizeRow : Option RowAuthorizer) (validate : ShaclValidator) :
    List BindingRow → List D
  | [] => []
  | row :: rest =>
    match serverRowStep b spec authorizeRow validate row with
    | Except.ok dto => dto :: processRows b spec authorizeRow validate rest
    | Except.error _ => processRows b spec authorizeRow validate rest

/-- A row authorizer that denies the row bound to the node p1. -/
def denyP1Auth : RowAuthorizer := fun row _ =>
  match List.lookup "id" row with
  | some (Term.namedNode v) =>
    if v = "p1" then Except.error "deny row" else Except.ok ()
  | _ => Except.ok ()

/-- A call-indexed quad builder: models an effectful or nondeterministic
buildQuads whose result may differ between its first and second
invocation on the same row. -/
def IndexedQuadBuilder : Type := Nat → List Quad

/-- The per-row step of the handler with its two buildQuads call sites
made observable (part_001 lines 76 to 81, with shapeAndMapOne inlined
from shaper.ts lines 103 to 118): the handler first calls buildQuads to
obtain the quads passed to row-level authorization; shapeAndMapOne then
calls buildQuads a second, independent time to obtain the quads passed to
the validator (the validator here is partially applied to the shape
reference).  The function returns the step result together with the list
of buildQuads results in invocation order. -/
def serverRowStepTrace {D : Type} (focusNodeVar : String) (mapToObject : BindingRow → D)
    (bq : IndexedQuadBuilder) (authorizeRow : List Quad → Except String Unit)
    (validate : List Quad → Term → Except String Unit) (row : BindingRow) :
    Except String D × List (List Quad) :=
  let quadsAuth := bq 0
  match authorizeRow quadsAuth with
  | Except.error e => (Except.error e, [quadsAuth])
  | Except.ok _ =>
    let quadsVal := bq 1
    match List.lookup focusNodeVar row with
    | none => (Except.error (missingFocusMsg focusNodeVar), [quadsAuth, quadsVal])
    | some focusNode =>
      match validate quadsVal focusNode with
      | Except.error e => (Except.error e, [quadsAuth, quadsVal])
      | Except.ok _ => (Except.ok (mapToObject row), [quadsAuth, quadsVal])

/-- A quad mentioning the object o1. -/
def quadA : Quad := Quad.mk (Term.namedNode "s") (Term.namedNode "p") (Term.namedNode "o1") none

/-- A quad mentioning the object o2. -/
def quadB : Quad := Quad.mk (Term.namedNode "s") (Term.namedNode "p") (Term.namedNode "o2") none

/-- An effectful quad builder returning quadA on its first call and quadB
afterwards. -/
def diffQuadBuilder : IndexedQuadBuilder := fun i => if i = 0 then [quadA] else [quadB]

/-- A row authorizer accepting exactly the quad list holding quadA. -/
def authOnlyA : List Quad → Except String Unit := fun q =>
  if q = [quadA] then Except.ok () else Except.error "Forbidden"

/-- A validator accepting exactly the quad list holding quadB. -/
def valOnlyB : List Quad → Term → Except String Unit := fun q _ =>
  if q = [quadB] then Except.ok () else Except.error "invalid quads"

/-! ### Helper lemmas -/

theorem isPrefixOf_append_self (l r : List Char) : List.isPrefixOf l (l ++ r) = true := by
  induction l with
  | nil => simp [List.isPrefixOf]
  | cons c t ih => simp [List.isPrefixOf, ih]

theorem hasSubstrAux_of_isPrefixOf (p l : List Char) (h : List.isPrefixOf p l = true) :
    hasSubstrAux p l = true := by
  cases l with
  | nil => simpa [hasSubstrAux] using h
  | cons c t => simp [hasSubstrAux, h]

/-- The missing-focus-node message always contains the substring the catch
block of shapeAndMapAll looks for. -/
theorem missingFocusMsg_hasToken (f : String) :
    hasSubstr (missingFocusMsg f) focusNodeToken = true := by
  apply hasSubstrAux_of_isPrefixOf
  have h : (missingFocusMsg f).toList = focusNodeToken.toList
      ++ (" ".toList ++ (squote.toList ++ (f.toList
        ++ (squote.toList ++ " not found in binding row".toList)))) := by
    show (missingFocusMsg f).data = _
    simp [missingFocusMsg, String.toList]
  rw [h]
  exact isPrefixOf_append_self _ _

theorem alwaysOkValidator_clean :
    ∀ q sh t m, alwaysOkValidator q sh t = Except.error m →
      hasSubstr m focusNodeToken = false := by
  intro q sh t m hm
  simp [alwaysOkValidator] at hm

/-- When no validator failure message mentions focusNodeVar and every row
resolves its focus node, the loop of shapeAndMapAll appends exactly the
DTOs of the validated rows to the accumulator. -/
theorem shapeAllGo_partition {D : Type} (spec : OutputSpec D) (validate : ShaclValidator)
    (hclean : ∀ q sh t m, validate q sh t = Except.error m → hasSubstr m focusNodeToken = false) :
    ∀ (rows : List BindingRow) (acc : List D),
      (∀ r ∈ rows, (List.lookup spec.focusNodeVar r).isSome) →
      shapeAllGo spec validate rows acc
        = Except.ok (acc ++ rows.filterMap (rowOutcome spec validate)) := by
  intro rows
  induction rows with
  | nil => intro acc _; simp [shapeAllGo]
  | cons row rest ih =>
    intro acc h
    have hrow := h row (by simp)
    obtain ⟨t, ht⟩ := Option.isSome_iff_exists.mp hrow
    have hrest : ∀ r ∈ rest, (List.lookup spec.focusNodeVar r).isSome := by
      intro r hr; exact h r (List.mem_cons_of_mem _ hr)
    cases hv : validate (spec.buildQuads row) spec.shape t with
    | ok u =>
      have hstep : shapeRowStep spec validate row = Except.ok (spec.mapToObject row) := by
        simp [shapeRowStep, ht, hv]
      have hout : rowOutcome spec validate row = some (spec.mapToObject row) := by
        simp [rowOutcome, ht, hv]
      simp only [shapeAllGo, hstep, List.filterMap_cons, hout]
      rw [ih (acc ++ [spec.mapToObject row]) hrest]
      simp
    | error m =>
      have hstep : shapeRowStep spec validate row = Except.error m := by
        simp [shapeRowStep, ht, hv]
      have hout : rowOutcome spec validate row = none := by
        simp [rowOutcome, ht, hv]
      have hm := hclean _ _ _ _ hv
      simp only [shapeAllGo, hstep, List.filterMap_cons, hout, hm]
      rw [if_neg (by simp [hm])]
      exact ih acc hrest

/-- A row whose step fails with a message not mentioning focusNodeVar is
skipped by the loop of shapeAndMapAll without affecting anything else. -/
theorem shapeAllGo_skip {D : Type} (spec : OutputSpec D) (validate : ShaclValidator)
    (row : BindingRow) (msg : String)
    (hstep : shapeRowStep spec validate row = Except.error msg)
    (hclean : hasSubstr msg focusNodeToken = false) :
    ∀ (pre post : List BindingRow) (acc : List D),
      shapeAllGo spec validate (pre ++ row :: post) acc
        = shapeAllGo spec validate (pre ++ post) acc := by
  intro pre
  induction pre with
  | nil =>
    intro post acc
    simp only [List.nil_append, shapeAllGo, hstep]
    rw [if_neg (by simp [hclean])]
  | cons p ps ih =>
    intro post acc
    cases hs : shapeRowStep spec validate p with
    | ok dto => simp only [List.cons_append, shapeAllGo, hs]; exact ih post (acc ++ [dto])
    | error m =>
      by_cases hm : hasSubstr m focusNodeToken = true
      · simp only [List.cons_append, shapeAllGo, hs, hm, if_true]
      · simp only [List.cons_append, shapeAllGo, hs]
        rw [if_neg (by simpa using hm), if_neg (by simpa using hm)]
        exact ih post acc

/-- If some row of the list does not resolve the focus node, the loop of
shapeAndMapAll ends in an error whose message mentions focusNodeVar. -/
theorem shapeAllGo_missing_aborts {D : Type} (spec : OutputSpec D) (validate : ShaclValidator) :
    ∀ (rows : List BindingRow) (acc : List D) (r : BindingRow),
      r ∈ rows → List.lookup spec.focusNodeVar r = none →
      ∃ msg, shapeAllGo spec validate rows acc = Except.error msg
        ∧ hasSubstr msg focusNodeToken = true := by
  intro rows
  induction rows with
  | nil => intro acc r hr; cases hr
  | cons row rest ih =>
    intro acc r hr hnone
    cases hs : shapeRowStep spec validate row with
    | ok dto =>
      have hrr : r ∈ rest := by
        rcases List.mem_cons.mp hr with h1 | h2
        · subst h1; simp [shapeRowStep, hnone] at hs
        · exact h2
      simpa [shapeAllGo, hs] using ih (acc ++ [dto]) r hrr hnone
    | error msg =>
      by_cases hm : hasSubstr msg focusNodeToken = true
      · exact ⟨msg, by simp [shapeAllGo, hs, hm], hm⟩
      · have hrr : r ∈ rest := by
          rcases List.mem_cons.mp hr with h1 | h2
          · subst h1
            have hmsg : msg = missingFocusMsg spec.focusNodeVar := by
              simp [shapeRowStep, hnone] at hs
              exact hs.symm
            subst hmsg
            exact absurd (missingFocusMsg_hasToken _) hm
          · exact h2
        have hrec := ih acc r hrr hnone
        simp only [shapeAllGo, hs]
        rw [if_neg (by simpa using hm)]
        exact hrec

/-- With a validator whose failure messages never mention focusNodeVar, a
row without the focus-node binding makes the loop of shapeAndMapAll end in
exactly the missing-focus-node error. -/
theorem shapeAllGo_missing_clean {D : Type} (spec : OutputSpec D) (validate : ShaclValidator)
    (hclean : ∀ q sh t m, validate q sh t = Except.error m → hasSubstr m focusNodeToken = false) :
    ∀ (rows : List BindingRow) (acc : List D) (r : BindingRow),
      r ∈ rows → List.lookup spec.focusNodeVar r = none →
      shapeAllGo spec validate rows acc = Except.error (missingFocusMsg spec.focusNodeVar) := by
  intro rows
  induction rows with
  | nil => intro acc r hr; cases hr
  | cons row rest ih =>
    intro acc r hr hnone
    cases hlook : List.lookup spec.focusNodeVar row with
    | none =>
      have hstep : shapeRowStep spec validate row
          = Except.error (missingFocusMsg spec.focusNodeVar) := by
        simp [shapeRowStep, hlook]
      simp only [shapeAllGo, hstep]
      rw [if_pos (by simp [missingFocusMsg_hasToken])]
    | some t =>
      have hrr : r ∈ rest := by
        rcases List.mem_cons.mp hr with h1 | h2
        · subst h1; rw [hlook] at hnone; cases hnone
        · exact h2
      cases hv : validate (spec.buildQuads row) spec.shape t with
      | ok u =>
        have hstep : shapeRowStep spec validate row = Except.ok (spec.mapToObject row) := by
          simp [shapeRowStep, hlook, hv]
        simp only [shapeAllGo, hstep]
        exact ih (acc ++ [spec.mapToObject row]) r hrr hnone
      | error m =>
        have hstep : shapeRowStep spec validate row = Except.error m := by
          simp [shapeRowStep, hlook, hv]
        have hm := hclean _ _ _ _ hv
        simp only [shapeAllGo, hstep]
        rw [if_neg (by simp [hm])]
        exact ih acc r hrr hnone

/-! ### Claim theorems -/

/-- C1, counterexample: as universally stated the claim fails.  First, a
row lacking the focus-node variable aborts the whole call instead of being
excluded from the result, so the DTO of the later succeeding row p2 is not
returned.  Second, a validation failure whose message merely contains the
substring focusNodeVar is re-thrown by the catch block, aborting the
remaining rows, so again the DTO of p2 is not returned. -/
theorem claim1_counterexample :
    (shapeAndMapAll cexBuilder alwaysOkValidator [rowNoFocus, rowP2]
        = Except.error (missingFocusMsg "id")
      ∧ shapeAndMapAll cexBuilder alwaysOkValidator [rowNoFocus, rowP2]
        ≠ Except.ok ["p2"])
    ∧ (shapeAndMapAll cexBuilder dirtyOnP1Validator [rowP1, rowP2]
        = Except.error dirtyMsg
      ∧ shapeAndMapAll cexBuilder dirtyOnP1Validator [rowP1, rowP2]
        ≠ Except.ok ["p2"]) := by
  refine ⟨⟨?_, ?_⟩, ?_, ?_⟩ <;> decide

/-- C1, amended: for every OutputSpec and row sequence in which every row
resolves the focus-node variable, and provided no validator failure
message contains the substring focusNodeVar, shapeAndMapAll returns
exactly the DTOs, in arrival order, of the rows whose validation
succeeded; a failed row is excluded without aborting the remaining rows. -/
theorem shapeAndMapAll_partition {D : Type} (b : SparqlBuilder D) (spec : OutputSpec D)
    (validate : ShaclValidator) (rows : List BindingRow)
    (hspec : b.getOutputSpec = some spec)
    (hfocus : ∀ r ∈ rows, (List.lookup spec.focusNodeVar r).isSome)
    (hclean : ∀ q sh t m, validate q sh t = Except.error m →
      hasSubstr m focusNodeToken = false) :
    shapeAndMapAll b validate rows
      = Except.ok (rows.filterMap (rowOutcome spec validate)) := by
  unfold shapeAndMapAll
  rw [hspec]
  simpa using shapeAllGo_partition spec validate hclean rows [] hfocus

theorem shapeAndMapAll_partition_witness :
    shapeAndMapAll cexBuilder alwaysOkValidator [rowP1, rowP2] = Except.ok ["p1", "p2"] := by
  have h := shapeAndMapAll_partition cexBuilder cexSpec alwaysOkValidator [rowP1, rowP2]
    rfl (by decide) alwaysOkValidator_clean
  exact h.trans (by decide)

/-- C2, counterexample: for a validation failure whose message contains
the substring focusNodeVar, shapeAndMapOne propagates it as the claim
says, but shapeAndMapAll on the sequence holding that identical row does
not swallow it: it propagates the identical failure instead of returning
the empty result. -/
theorem claim2_counterexample :
    shapeAndMapOne cexBuilder dirtyOnP1Validator rowP1 = Except.error dirtyMsg
    ∧ shapeAndMapAll cexBuilder dirtyOnP1Validator [rowP1] = Except.error dirtyMsg
    ∧ shapeAndMapAll cexBuilder dirtyOnP1Validator [rowP1] ≠ Except.ok [] := by
  refine ⟨?_, ?_, ?_⟩ <;> decide

/-- C2, amended: for a validation failure whose message does not contain
the substring focusNodeVar, shapeAndMapOne propagates the failure to its
caller while shapeAndMapAll drops the failing row and behaves exactly as
on the sequence without it. -/
theorem shapeOne_propagates_shapeAll_swallows {D : Type} (b : SparqlBuilder D)
    (spec : OutputSpec D) (validate : ShaclValidator)
    (pre post : List BindingRow) (row : BindingRow) (t : Term) (msg : String)
    (hspec : b.getOutputSpec = some spec)
    (ht : List.lookup spec.focusNodeVar row = some t)
    (hfail : validate (spec.buildQuads row) spec.shape t = Except.error msg)
    (hclean : hasSubstr msg focusNodeToken = false) :
    shapeAndMapOne b validate row = Except.error msg
    ∧ shapeAndMapAll b validate (pre ++ row :: post)
      = shapeAndMapAll b validate (pre ++ post) := by
  have hstep : shapeRowStep spec validate row = Except.error msg := by
    simp [shapeRowStep, ht, hfail]
  constructor
  · unfold shapeAndMapOne
    rw [hspec]
    exact hstep
  · unfold shapeAndMapAll
    rw [hspec]
    exact shapeAllGo_skip spec validate row msg hstep hclean pre post []

theorem shapeOne_propagates_shapeAll_swallows_witness :
    shapeAndMapOne cexBuilder cleanOnP1Validator rowP1 = Except.error cleanMsg
    ∧ shapeAndMapAll cexBuilder cleanOnP1Validator ([] ++ rowP1 :: [rowP2])
      = shapeAndMapAll cexBuilder cleanOnP1Validator ([] ++ [rowP2]) := by
  exact shapeOne_propagates_shapeAll_swallows cexBuilder cexSpec cleanOnP1Validator
    [] [rowP2] rowP1 (Term.namedNode "p1") cleanMsg rfl (by decide) (by decide) (by decide)

/-- C3, counterexample: the abort can surface a failure other than the
missing-focus-node one.  Here the first row fails validation with a
message that contains the substring focusNodeVar, so the call aborts with
that validator message even though the second row lacks the focus-node
variable; the raised failure is not the missing-focus-node failure. -/
theorem claim3_counterexample :
    shapeAndMapAll cexBuilder dirtyOnP1Validator [rowP1, rowNoFocus] = Except.error dirtyMsg
    ∧ dirtyMsg ≠ missingFocusMsg "id" := by
  refine ⟨?_, ?_⟩ <;> decide

/-- C3, amended: whenever some row of the sequence lacks the focus-node
variable, shapeAndMapAll aborts the whole call with an error (never a
result array) whose message contains the substring focusNodeVar; and
provided no validator failure message contains that substring, the raised
failure is exactly the missing-focus-node failure. -/
theorem shapeAndMapAll_missing_focus_aborts {D : Type} (b : SparqlBuilder D)
    (spec : OutputSpec D) (validate : ShaclValidator)
    (rows : List BindingRow) (r : BindingRow)
    (hspec : b.getOutputSpec = some spec)
    (hmem : r ∈ rows)
    (hmiss : List.lookup spec.focusNodeVar r = none) :
    (∃ msg, shapeAndMapAll b validate rows = Except.error msg
      ∧ hasSubstr msg focusNodeToken = true)
    ∧ ((∀ q sh t m, validate q sh t = Except.error m →
          hasSubstr m focusNodeToken = false) →
        shapeAndMapAll b validate rows
          = Except.error (missingFocusMsg spec.focusNodeVar)) := by
  constructor
  · unfold shapeAndMapAll
    rw [hspec]
    exact shapeAllGo_missing_aborts spec validate rows [] r hmem hmiss
  · intro hclean
    unfold shapeAndMapAll
    rw [hspec]
    exact shapeAllGo_missing_clean spec validate hclean rows [] r hmem hmiss

theorem shapeAndMapAll_missing_focus_aborts_witness :
    shapeAndMapAll cexBuilder alwaysOkValidator [rowNoFocus]
      = Except.error (missingFocusMsg "id") := by
  exact (shapeAndMapAll_missing_focus_aborts cexBuilder cexSpec alwaysOkValidator
    [rowNoFocus] rowNoFocus rfl (by decide) (by decide)).2 alwaysOkValidator_clean

theorem applyOps_wherePatterns {D : Type} (ops : List BuilderOp) :
    ∀ b : SparqlBuilder D,
      (applyOps b ops).wherePatterns = b.wherePatterns ++ opTriples ops := by
  induction ops with
  | nil => intro b; simp [applyOps, opTriples]
  | cons op ops ih =>
    intro b
    cases op <;>
      simp [applyOps, applyOp, opTriples, ih, SparqlBuilder.whereTriple,
        SparqlBuilder.optionalTriple, SparqlBuilder.filter, SparqlBuilder.limit]

theorem applyOps_filters {D : Type} (ops : List BuilderOp) :
    ∀ b : SparqlBuilder D,
      (applyOps b ops).filters = b.filters ++ opFilters ops := by
  induction ops with
  | nil => intro b; simp [applyOps, opFilters]
  | cons op ops ih =>
    intro b
    cases op <;>
      simp [applyOps, applyOp, opFilters, ih, SparqlBuilder.whereTriple,
        SparqlBuilder.optionalTriple, SparqlBuilder.filter, SparqlBuilder.limit]

theorem applyOps_limitValue {D : Type} (ops : List BuilderOp) :
    ∀ b : SparqlBuilder D,
      (applyOps b ops).limitValue = (opLimit ops).elim b.limitValue some := by
  induction ops with
  | nil => intro b; simp [applyOps, opLimit]
  | cons op ops ih =>
    intro b
    cases op with
    | limit n =>
      simp only [applyOps, applyOp, SparqlBuilder.limit, opLimit, ih]
      cases h : opLimit ops <;> simp [Option.getD]
    | whereTriple s p o =>
      simp [applyOps, applyOp, SparqlBuilder.whereTriple, opLimit, ih]
    | optionalTriple s p o =>
      simp [applyOps, applyOp, SparqlBuilder.optionalTriple, opLimit, ih]
    | filter e =>
      simp [applyOps, applyOp, SparqlBuilder.filter, opLimit, ih]

/-- C6: for every chain of whereTriple, optionalTriple, filter and limit
calls on a fresh builder, toSparqlAst yields a where-list holding, in
insertion order, one pattern node per inserted triple (a bgp node with the
translated triple, wrapped in an optional node when the triple was
optional), followed by all filter nodes in insertion order, and the limit
of the AST is the value of the last limit call (absent when none was
made).  Determinism of repeated calls is inherent: toSparqlAst is a pure
function of the accumulated state. -/
theorem toSparqlAst_structure {D : Type} (ops : List BuilderOp) :
    ((applyOps (SparqlBuilder.new : SparqlBuilder D) ops).toSparqlAst.whereList
      = (opTriples ops).map patternNode ++ (opFilters ops).map Pattern.filterP)
    ∧ ((applyOps (SparqlBuilder.new : SparqlBuilder D) ops).toSparqlAst.limit
      = opLimit ops)
    ∧ (∀ s p o, patternNode (WherePattern.mk s p o false)
      = Pattern.bgp [AstTriple.mk (termToSparqlJs s) (termToSparqlJs p) (termToSparqlJs o)])
    ∧ (∀ s p o, patternNode (WherePattern.mk s p o true)
      = Pattern.optionalP [Pattern.bgp
          [AstTriple.mk (termToSparqlJs s) (termToSparqlJs p) (termToSparqlJs o)]]) := by
  refine ⟨?_, ?_, ?_, ?_⟩
  · show ((applyOps (SparqlBuilder.new : SparqlBuilder D) ops).wherePatterns.map patternNode
        ++ (applyOps (SparqlBuilder.new : SparqlBuilder D) ops).filters.map
            (fun e => Pattern.filterP e)) = _
    rw [applyOps_wherePatterns, applyOps_filters]
    simp [SparqlBuilder.new]
  · show (applyOps (SparqlBuilder.new : SparqlBuilder D) ops).limitValue = _
    rw [applyOps_limitValue]
    cases opLimit ops <;> simp [SparqlBuilder.new]
  · intro s p o; simp [patternNode]
  · intro s p o; simp [patternNode]

theorem mem_addIri (y x : String) (acc : List String) :
    y ∈ addIri acc x ↔ y ∈ acc ∨ y = x := by
  by_cases h : x ∈ acc
  · simp only [addIri, if_pos h]
    constructor
    · exact Or.inl
    · rintro (hy | rfl)
      · exact hy
      · exact h
  · simp [addIri, if_neg h]

theorem nodup_addIri (x : String) (acc : List String) (h : acc.Nodup) :
    (addIri acc x).Nodup := by
  by_cases hx : x ∈ acc
  · simpa [addIri, if_pos hx] using h
  · simp [addIri, if_neg hx, List.nodup_append, h, hx]

theorem mem_addTerm (y : String) (t : Term) (acc : List String) :
    y ∈ addTerm acc t ↔ y ∈ acc ∨ termIsIri y t = true := by
  cases t with
  | namedNode v =>
    simp only [addTerm, termIsIri, mem_addIri, beq_iff_eq]
    exact or_congr Iff.rfl eq_comm
  | literal a b c => simp [addTerm, termIsIri]
  | var n => simp [addTerm, termIsIri]
  | blankNode l => simp [addTerm, termIsIri]

theorem nodup_addTerm (t : Term) (acc : List String) (h : acc.Nodup) :
    (addTerm acc t).Nodup := by
  cases t with
  | namedNode v => exact nodup_addIri v acc h
  | literal a b c => exact h
  | var n => exact h
  | blankNode l => exact h

theorem mem_addTriple (y : String) (t : AstTriple) (acc : List String) :
    y ∈ addTriple acc t ↔ y ∈ acc ∨ tripleHasIri y t = true := by
  simp [addTriple, mem_addTerm, tripleHasIri, or_assoc]

theorem nodup_addTriple (t : AstTriple) (acc : List String) (h : acc.Nodup) :
    (addTriple acc t).Nodup := by
  exact nodup_addTerm _ _ (nodup_addTerm _ _ (nodup_addTerm _ _ h))

theorem mem_foldl_addTriple (y : String) (ts : List AstTriple) :
    ∀ acc : List String,
      y ∈ ts.foldl addTriple acc ↔ y ∈ acc ∨ ts.any (tripleHasIri y) = true := by
  induction ts with
  | nil => intro acc; simp
  | cons t ts ih =>
    intro acc
    simp [List.foldl_cons, ih, mem_addTriple, or_assoc]

theorem nodup_foldl_addTriple (ts : List AstTriple) :
    ∀ acc : List String, acc.Nodup → (ts.foldl addTriple acc).Nodup := by
  induction ts with
  | nil => intro acc h; simpa using h
  | cons t ts ih =>
    intro acc h
    exact ih _ (nodup_addTriple _ _ h)

/-- Membership in the collected identifier set: an identifier is collected
exactly when it was already in the accumulator or occurs in a leaf basic
pattern anywhere under the (arbitrarily nested) pattern list. -/
theorem mem_collectPatterns (y : String) :
    ∀ (ps : List Pattern) (acc : List String),
      y ∈ collectPatterns ps acc ↔ y ∈ acc ∨ occursPatterns y ps = true := by
  intro ps acc
  induction ps, acc using collectPatterns.induct with
  | case1 acc => simp [collectPatterns, occursPatterns]
  | case2 rest acc ih => simpa [collectPatterns, occursPatterns] using ih
  | case3 ts rest acc ih =>
    simp [collectPatterns, occursPatterns, ih, mem_foldl_addTriple, or_assoc]
  | case4 ps2 rest acc ih1 ih2 =>
    simp [collectPatterns, occursPatterns, ih1, ih2, or_assoc]
  | case5 ps2 rest acc ih1 ih2 =>
    simp [collectPatterns, occursPatterns, ih1, ih2, or_assoc]
  | case6 op rest acc ih => simpa [collectPatterns, occursPatterns] using ih

theorem nodup_collectPatterns :
    ∀ (ps : List Pattern) (acc : List String), acc.Nodup → (collectPatterns ps acc).Nodup := by
  intro ps acc
  induction ps, acc using collectPatterns.induct with
  | case1 acc => intro h; simpa [collectPatterns] using h
  | case2 rest acc ih => intro h; rw [collectPatterns]; exact ih h
  | case3 ts rest acc ih =>
    intro h
    rw [collectPatterns]
    exact ih (nodup_foldl_addTriple ts acc h)
  | case4 ps2 rest acc ih1 ih2 =>
    intro h
    rw [collectPatterns]
    exact ih2 (ih1 h)
  | case5 ps2 rest acc ih1 ih2 =>
    intro h
    rw [collectPatterns]
    exact ih2 (ih1 h)
  | case6 op rest acc ih => intro h; rw [collectPatterns]; exact ih h

/-- C7: the analyzer on an AST whose where field is absent or not an array
and whose prefixes record is absent returns empty used identifiers and an
empty prefix mapping (and, being a total function, never throws); on every
AST the used identifiers are duplicate-free; and an identifier is
collected exactly when it occurs in a subject, predicate or object
position of a leaf basic-pattern node reachable through arbitrarily nested
optional or group pattern lists. -/
theorem analyzeAst_properties :
    (∀ a : AstLike, (∀ ps, a.whereField ≠ WhereField.arr ps) → a.prefixes = none →
      analyzeAst a = Analysis.mk [] [])
    ∧ (∀ a : AstLike, (analyzeAst a).usedIris.Nodup)
    ∧ (∀ (a : AstLike) (ps : List Pattern) (y : String),
        a.whereField = WhereField.arr ps →
        (y ∈ (analyzeAst a).usedIris ↔ occursPatterns y ps = true)) := by
  refine ⟨?_, ?_, ?_⟩
  · intro a hw hp
    cases hwf : a.whereField with
    | arr ps => exact absurd hwf (hw ps)
    | missing => simp [analyzeAst, hwf, hp, collectPatterns]
    | nonArray => simp [analyzeAst, hwf, hp, collectPatterns]
  · intro a
    cases hwf : a.whereField <;>
      · simp only [analyzeAst, hwf]
        exact nodup_collectPatterns _ _ List.nodup_nil
  · intro a ps y hwf
    simp [analyzeAst, hwf, mem_collectPatterns]

theorem analyzeAst_properties_witness :
    analyzeAst (AstLike.mk WhereField.missing none) = Analysis.mk [] []
    ∧ (nestedDeepIri ∈ (analyzeAst (AstLike.mk (WhereField.arr nestedPs) none)).usedIris
        ↔ occursPatterns nestedDeepIri nestedPs = true) := by
  constructor
  · exact analyzeAst_properties.1 (AstLike.mk WhereField.missing none)
      (fun ps h => WhereField.noConfusion h) rfl
  · exact analyzeAst_properties.2.2 (AstLike.mk (WhereField.arr nestedPs) none)
      nestedPs nestedDeepIri rfl

theorem rowOfFields_heuristic (fields : List (String × JsonVal)) :
    rowOfFields fields = fields.map (fun kv =>
      match kv.2 with
      | JsonVal.str s => (kv.1, Term.literal s "" none)
      | v => (kv.1, Term.namedNode (jsString v))) := by
  unfold rowOfFields
  apply List.map_congr_left
  intro kv _
  rcases kv with ⟨k, v⟩
  cases v <;> rfl

/-- C8: when the executor normalizes a non-streaming backend result, an
array result yields one row per object-like entry in entry order and a
single object result yields one row; in every row, each entry field whose
value is a string becomes a Literal-shaped term and each field of any
other kind becomes a NamedNode-shaped term, both carrying the string form
of the value. -/
theorem execQuery_normalizes_backend_rows (avail : Bool) (eng : EngineCaps)
    (sparql : String) (q : String → Except String GrapherResult) (res : GrapherResult)
    (hq : eng.queryFn = some q) (hres : q sparql = Except.ok res) :
    execQuery avail eng sparql = Except.ok (normalizeGrapherData res.data, none)
    ∧ (∀ items, normalizeGrapherData (JsonVal.arr items)
        = items.filterMap (fun item => (jsEntries item).map (fun fields =>
            fields.map (fun kv =>
              match kv.2 with
              | JsonVal.str s => (kv.1, Term.literal s "" none)
              | v => (kv.1, Term.namedNode (jsString v))))))
    ∧ (∀ fields, normalizeGrapherData (JsonVal.obj fields)
        = [fields.map (fun kv =>
            match kv.2 with
            | JsonVal.str s => (kv.1, Term.literal s "" none)
            | v => (kv.1, Term.namedNode (jsString v)))]) := by
  have hrow : rowOfFields = fun fields => fields.map (fun kv =>
      match kv.2 with
      | JsonVal.str s => (kv.1, Term.literal s "" none)
      | v => (kv.1, Term.namedNode (jsString v))) := funext rowOfFields_heuristic
  refine ⟨?_, ?_, ?_⟩
  · simp [execQuery, hq, hres]
  · intro items
    simp only [normalizeGrapherData, hrow]
  · intro fields
    simp only [normalizeGrapherData, jsEntries, hrow]

theorem execQuery_normalizes_backend_rows_witness :
    execQuery true cexGrapherEngine "q"
      = Except.ok (normalizeGrapherData grapherArrData, none)
    ∧ normalizeGrapherData grapherArrData
      = [[("name", Term.literal "Alice" "" none), ("age", Term.namedNode "30")],
         [("id", Term.namedNode "null")]] := by
  constructor
  · exact (execQuery_normalizes_backend_rows true cexGrapherEngine "q"
      (fun _ => Except.ok (GrapherResult.mk grapherArrData)) (GrapherResult.mk grapherArrData)
      rfl rfl).1
  · decide

/-- C9, counterexample: a failure surfaced while the returned row
sequence is being consumed is not re-raised as the query-execution-failed
error, and the rows yielded before it are surfaced: the stream failure
boom reaches the consumer verbatim, after one partial row. -/
theorem claim9_counterexample :
    execQuery false cexComunicaEngine "q"
      = Except.ok ([[("id", Term.namedNode "p1")]], some "boom")
    ∧ (some "boom" : Option String) ≠ some (queryFailedMsg "boom") := by
  refine ⟨?_, ?_⟩ <;> decide

/-- C9, amended: a failure of the awaited backend call itself (grapher
query or Comunica queryBindings) is caught and re-raised as the
query-execution-failed error carrying the original message, with no rows
surfaced and no retry (the capability is invoked once by construction);
but a failure raised by the stream while the returned row sequence is
being consumed propagates to the consumer unwrapped, after the rows
already yielded. -/
theorem execQuery_failure_semantics (avail : Bool) (eng : EngineCaps) (sparql : String) :
    (∀ q m, eng.queryFn = some q → q sparql = Except.error m →
      execQuery avail eng sparql = Except.error (queryFailedMsg m))
    ∧ (∀ qb m, avail = false → eng.queryFn = none → eng.queryBindings = some qb →
      qb sparql = Except.error m →
      execQuery avail eng sparql = Except.error (queryFailedMsg m))
    ∧ (∀ qb st, avail = false → eng.queryFn = none → eng.queryBindings = some qb →
      qb sparql = Except.ok st →
      execQuery avail eng sparql = Except.ok (st.items.map convertBinding, st.failAfter)) := by
  refine ⟨?_, ?_, ?_⟩
  · intro q m hq hm
    simp [execQuery, hq, hm]
  · intro qb m ha hq hqb hm
    simp [execQuery, ha, hq, hqb, hm]
  · intro qb st ha hq hqb hst
    simp [execQuery, ha, hq, hqb, hst]

theorem execQuery_failure_semantics_witness :
    execQuery false cexFailEngine "q"
      = Except.error (queryFailedMsg "Query failed") := by
  exact (execQuery_failure_semantics false cexFailEngine "q").1
    (fun _ => Except.error "Query failed") "Query failed" rfl rfl

/-- C5, counterexample: a POST whose JSON envelope lacks the operation
field renders status 400 (a Zod envelope failure caught as
ValidationError), not 404 as the claim states. -/
theorem claim5_counterexample :
    (handle emptyRegistry trivialRun
      (HRequest.mk "POST" (some (EnvelopeJson.mk none none)))).status = 400
    ∧ (handle emptyRegistry trivialRun
      (HRequest.mk "POST" (some (EnvelopeJson.mk none none)))).status ≠ 404 := by
  refine ⟨?_, ?_⟩ <;> decide

/-- C5, amended: for every registry and resolved-pipeline capability, a
POST whose envelope lacks the operation field renders 400 ValidationError,
a POST whose operation is the empty string (rejected by the min-length-one
schema, so it also names no registry entry) likewise renders 400
ValidationError rather than 404, and a POST whose nonempty operation names
no registry entry renders 404 OperationNotFound. -/
theorem handle_envelope_statuses {Op R : Type} (registry : String → Option Op)
    (runResolved : Op → ParsedEnvelope → Except HandlerErr R) (bj : EnvelopeJson) :
    (bj.operation = none →
      (handle registry runResolved (HRequest.mk "POST" (some bj))).status = 400
      ∧ (handle registry runResolved (HRequest.mk "POST" (some bj))).errorName
        = some "ValidationError")
    ∧ (bj.operation = some "" →
      (handle registry runResolved (HRequest.mk "POST" (some bj))).status = 400
      ∧ (handle registry runResolved (HRequest.mk "POST" (some bj))).errorName
        = some "ValidationError")
    ∧ (∀ s, bj.operation = some s → s.length ≥ 1 → registry s = none →
      (handle registry runResolved (HRequest.mk "POST" (some bj))).status = 404
      ∧ (handle registry runResolved (HRequest.mk "POST" (some bj))).errorName
        = some "OperationNotFound") := by
  refine ⟨?_, ?_, ?_⟩
  · intro hop
    simp [handle, parseRequestEnvelope, hop, renderCatch]
  · intro hop
    simp [handle, parseRequestEnvelope, hop, renderCatch]
  · intro s hop hlen hreg
    simp [handle, parseRequestEnvelope, hop, hlen, hreg]

theorem handle_envelope_statuses_witness :
    ((handle emptyRegistry trivialRun
      (HRequest.mk "POST" (some (EnvelopeJson.mk (some "") none)))).status = 400
    ∧ (handle emptyRegistry trivialRun
      (HRequest.mk "POST" (some (EnvelopeJson.mk (some "") none)))).errorName
      = some "ValidationError")
    ∧ (handle emptyRegistry trivialRun
      (HRequest.mk "POST" (some (EnvelopeJson.mk (some "unknown") none)))).status = 404
    ∧ (handle emptyRegistry trivialRun
      (HRequest.mk "POST" (some (EnvelopeJson.mk (some "unknown") none)))).errorName
      = some "OperationNotFound" := by
  constructor
  · exact (handle_envelope_statuses emptyRegistry trivialRun
      (EnvelopeJson.mk (some "") none)).2.1 rfl
  · exact (handle_envelope_statuses emptyRegistry trivialRun
      (EnvelopeJson.mk (some "unknown") none)).2.2 "unknown" rfl (by decide) rfl

/-- C4: the handler row loop catches a row-level failure inside the loop:
the loop is a total function equal to filtering the per-row step results,
so it never aborts the request; and dropping one failing row leaves the
processing of all other rows, and the arrival order of their DTOs,
unchanged. -/
theorem processRows_partial_failure_isolation {D : Type} (b : SparqlBuilder D)
    (spec : OutputSpec D) (authorizeRow : Option RowAuthorizer) (validate : ShaclValidator)
    (_hspec : b.getOutputSpec = some spec) :
    (∀ rows, processRows b spec authorizeRow validate rows
      = rows.filterMap (fun r => (serverRowStep b spec authorizeRow validate r).toOption))
    ∧ (∀ pre post row e, serverRowStep b spec authorizeRow validate row = Except.error e →
        processRows b spec authorizeRow validate (pre ++ row :: post)
          = processRows b spec authorizeRow validate (pre ++ post)) := by
  constructor
  · intro rows
    induction rows with
    | nil => simp [processRows]
    | cons r rest ih =>
      cases hs : serverRowStep b spec authorizeRow validate r with
      | ok dto => simp [processRows, hs, ih, Except.toOption]
      | error e => simp [processRows, hs, ih, Except.toOption]
  · intro pre post row e hstep
    induction pre with
    | nil => simp [processRows, hstep]
    | cons p ps ih =>
      cases hs : serverRowStep b spec authorizeRow validate p with
      | ok dto => simp [processRows, hs, ih]
      | error e2 => simp [processRows, hs, ih]

theorem processRows_partial_failure_isolation_witness :
    processRows cexBuilder cexSpec (some denyP1Auth) alwaysOkValidator ([] ++ rowP1 :: [rowP2])
      = processRows cexBuilder cexSpec (some denyP1Auth) alwaysOkValidator ([] ++ [rowP2])
    ∧ processRows cexBuilder cexSpec (some denyP1Auth) alwaysOkValidator [rowP1, rowP2]
      = ["p2"] := by
  constructor
  · exact (processRows_partial_failure_isolation cexBuilder cexSpec (some denyP1Auth)
      alwaysOkValidator rfl).2 [] [rowP2] rowP1 "deny row" (by decide)
  · decide

/-- C10: whenever the per-row step succeeds, buildQuads was invoked
exactly twice on that row, in order: the first result was handed to
row-level authorization and the second, produced by the independent call
inside shapeAndMapOne, was handed to shape validation.  With an effectful
buildQuads the two results may differ, so the authorized quads need not
equal the validated quads (the witness exhibits such a run). -/
theorem buildQuads_called_twice {D : Type} (focusNodeVar : String)
    (mapToObject : BindingRow → D) (bq : IndexedQuadBuilder)
    (authorizeRow : List Quad → Except String Unit)
    (validate : List Quad → Term → Except String Unit) (row : BindingRow) (dto : D)
    (hok : (serverRowStepTrace focusNodeVar mapToObject bq authorizeRow validate row).1
      = Except.ok dto) :
    (serverRowStepTrace focusNodeVar mapToObject bq authorizeRow validate row).2
      = [bq 0, bq 1]
    ∧ authorizeRow (bq 0) = Except.ok ()
    ∧ (∃ t, List.lookup focusNodeVar row = some t ∧ validate (bq 1) t = Except.ok ()) := by
  cases ha : authorizeRow (bq 0) with
  | error e =>
    simp [serverRowStepTrace, ha] at hok
  | ok u =>
    cases hl : List.lookup focusNodeVar row with
    | none => simp [serverRowStepTrace, ha, hl] at hok
    | some t =>
      cases hv : validate (bq 1) t with
      | error e => simp [serverRowStepTrace, ha, hl, hv] at hok
      | ok v =>
        cases u
        cases v
        exact ⟨by simp [serverRowStepTrace, ha, hl, hv], rfl, t, rfl, hv⟩

theorem buildQuads_called_twice_witness :
    (serverRowStepTrace "id" cexDto diffQuadBuilder authOnlyA valOnlyB rowP1).2
      = [diffQuadBuilder 0, diffQuadBuilder 1]
    ∧ authOnlyA (diffQuadBuilder 0) = Except.ok ()
    ∧ diffQuadBuilder 0 ≠ diffQuadBuilder 1 := by
  have h := buildQuads_called_twice "id" cexDto diffQuadBuilder authOnlyA valOnlyB
    rowP1 "p1" (by decide)
  exact ⟨h.1, h.2.1, by decide⟩

end SparqlTs
